import Mathlib

/-!
Verification of the Aave V2 wallet credit-scoring pipeline
(`generate_scores.py`): the feature engineer (`engineer_features`) and the
cluster scorer (`generate_credit_scores`).

Modelling conventions:
* Python floats are modelled as exact rationals (`ℚ`); timestamps as `ℤ`.
* A raw JSON transaction is a `Tx` whose fields are `Option`-valued:
  `none` models a missing key.  For `ActionData.amount`, `none` collapses
  "key missing" and "value does not parse as a float" (both raise inside
  the same `try` block and drop the record).  For
  `ActionData.assetPriceUSD`, the outer `Option` is key presence
  (`.get('assetPriceUSD', 1.0)` defaults to `1.0` when absent) and the
  inner `Option` is parseability (`some none` = present but unparseable,
  which raises and drops the record).
* The K-Means fit (`kmeans.fit_predict`) is an external numerical
  optimizer and is not embedded; the scoring stage after it is modelled
  exactly, parameterized by the cluster assignment it produces (a label
  in `Fin N_CLUSTERS` per row, as sklearn returns labels `0..n_clusters-1`).
* The per-wallet accumulator dict (`wallet_stats[wallet][k] += ...` over
  the scan) is modelled extensionally: the final value of each per-wallet
  counter equals the corresponding count/sum over the parsed records of
  that wallet, and the output table is the map sending each wallet with
  at least one valid record to its feature row.
-/

/-- The nested `actionData` object of a raw transaction record. -/
structure ActionData where
  amount : Option ℚ
  assetPriceUSD : Option (Option ℚ)
deriving DecidableEq

/-- A raw transaction record, as handed to `engineer_features`. -/
structure Tx where
  userWallet : Option String
  action : Option String
  timestamp : Option ℤ
  actionData : Option ActionData
deriving DecidableEq

/-- A record that survived validation, with its normalized USD value. -/
structure ParsedTx where
  wallet : String
  action : String
  timestamp : ℤ
  usd : ℚ
deriving DecidableEq

/-- Per-record validation and normalization, lines 85-99 of
`generate_scores.py`.  `wallet = tx.get('userWallet')`,
`action = tx.get('action', '').lower()`, `timestamp = tx.get('timestamp')`;
`if not all([wallet, action, timestamp]): continue` — Python truthiness,
so a missing wallet/timestamp (`None`), an empty-string wallet or action,
and the integer timestamp `0` all drop the record.  Then
`amount = float(tx['actionData']['amount']) / 1e6`,
`price = float(tx['actionData'].get('assetPriceUSD', 1.0))`,
`usd_value = amount * price`, with any `ValueError/KeyError/TypeError`
dropping the record. -/
def parseTx (tx : Tx) : Option ParsedTx :=
  match tx.userWallet, tx.timestamp with
  | some w, some t =>
    let a := (tx.action.getD "").toLower
    if w = "" ∨ a = "" ∨ t = 0 then none
    else
      match tx.actionData with
      | none => none
      | some ad =>
        match ad.amount with
        | none => none
        | some amt =>
          match ad.assetPriceUSD with
          | some none => none
          | some (some p) => some ⟨w, a, t, amt / 1000000 * p⟩
          | none => some ⟨w, a, t, amt / 1000000 * 1⟩
  | _, _ => none

/-- The records that pass validation, in scan order. -/
def validTxs (l : List Tx) : List ParsedTx := l.filterMap parseTx

/-- The parsed records of one wallet (the records that contributed to
`wallet_stats[w]` and `wallet_timestamps[w]`). -/
def walletTxsOf (ps : List ParsedTx) (w : String) : List ParsedTx :=
  ps.filter (fun p => p.wallet = w)

/-- Final value of `wallet_stats[w]['num_' + a]`: one `+= 1` per parsed
record of wallet `w` whose (lower-cased) action is `a`. -/
def numActionOf (ps : List ParsedTx) (w a : String) : ℕ :=
  ((walletTxsOf ps w).filter (fun p => p.action = a)).length

/-- Final value of `wallet_stats[w]['total_usd_all_actions']`: one
`+= usd_value` per parsed record of wallet `w`. -/
def totalUsdOf (ps : List ParsedTx) (w : String) : ℚ :=
  ((walletTxsOf ps w).map ParsedTx.usd).sum

/-- Final value of `wallet_timestamps[w]`. -/
def walletTimestampsOf (ps : List ParsedTx) (w : String) : List ℤ :=
  (walletTxsOf ps w).map ParsedTx.timestamp

/-- Line 122: `stats.get('num_repay', 0) / num_borrows if num_borrows > 0
else 1.0`. -/
def repayBorrowRatioOf (ps : List ParsedTx) (w : String) : ℚ :=
  let nb := numActionOf ps w "borrow"
  if 0 < nb then (numActionOf ps w "repay" : ℚ) / nb else 1

/-- Line 123: `stats.get('num_liquidationcall', 0) / total_tx if
total_tx > 0 else 0`. -/
def liquidationRatioOf (ps : List ParsedTx) (w : String) : ℚ :=
  let tt := (walletTxsOf ps w).length
  if 0 < tt then (numActionOf ps w "liquidationcall" : ℚ) / tt else 0

/-- Lines 126-127 applied to a timestamp list `ts0`:
`timestamps = sorted(ts0 if ts0 else [0])` then
`(timestamps[-1] - timestamps[0]) / 86400 if len(timestamps) > 1 else 0`.
The last element of the ascending sort is the maximum and the first is the
minimum, so the span is `max - min`. -/
def spanDaysOf (ts0 : List ℤ) : ℚ :=
  let ts := if ts0.isEmpty then [0] else ts0
  if 1 < ts.length then
    (((ts.maximum.unbot' 0 - ts.minimum.untop' 0 : ℤ) : ℚ)) / 86400
  else 0

/-- Lines 126-127: `active_days` of wallet `w`, where
`wallet_timestamps.get(wallet, [0])` is the wallet's timestamp list (the
`[0]` default applies only to a wallet with no timestamps). -/
def activeDaysOf (ps : List ParsedTx) (w : String) : ℚ :=
  spanDaysOf (walletTimestampsOf ps w)

/-- Line 128: `active_days / total_tx if total_tx > 1 else 0`. -/
def avgTimeBetweenTxDaysOf (ps : List ParsedTx) (w : String) : ℚ :=
  let tt := (walletTxsOf ps w).length
  if 1 < tt then activeDaysOf ps w / tt else 0

/-- One row of the feature table built on lines 130-139. -/
structure FeatureRow where
  wallet : String
  total_tx : ℚ
  total_usd_all_actions : ℚ
  repay_borrow_ratio_count : ℚ
  num_liquidations : ℚ
  liquidation_ratio : ℚ
  active_days : ℚ
  avg_time_between_tx_days : ℚ
deriving DecidableEq

/-- The feature row of wallet `w` over the parsed records `ps`, or `none`
when `w` never received a `wallet_stats` entry (no valid record). -/
def engineerFeaturesOf (ps : List ParsedTx) (w : String) : Option FeatureRow :=
  if walletTxsOf ps w = [] then none
  else some
    { wallet := w
      total_tx := ((walletTxsOf ps w).length : ℚ)
      total_usd_all_actions := totalUsdOf ps w
      repay_borrow_ratio_count := repayBorrowRatioOf ps w
      num_liquidations := (numActionOf ps w "liquidationcall" : ℚ)
      liquidation_ratio := liquidationRatioOf ps w
      active_days := activeDaysOf ps w
      avg_time_between_tx_days := avgTimeBetweenTxDaysOf ps w }

/-- `engineer_features` as a map from wallet to feature row: `some row`
exactly for the wallets present in the returned DataFrame. -/
def engineerFeatures (l : List Tx) (w : String) : Option FeatureRow :=
  engineerFeaturesOf (validTxs l) w

/-- `N_CLUSTERS = 5` (line 40). -/
def N_CLUSTERS : ℕ := 5

/-- Numpy `astype(int)` on a float: truncation toward zero. -/
def truncToZero (q : ℚ) : ℤ := if 0 ≤ q then ⌊q⌋ else -⌊-q⌋

/-- The distinct cluster labels that occur in the table, i.e. the groups
of `df_features.groupby('cluster')`. -/
def clustersPresent (rows : List (FeatureRow × Fin N_CLUSTERS)) : List (Fin N_CLUSTERS) :=
  (rows.map Prod.snd).dedup

/-- `df_features.groupby('cluster')[col].mean()` for one cluster. -/
def clusterMean (rows : List (FeatureRow × Fin N_CLUSTERS)) (c : Fin N_CLUSTERS)
    (f : FeatureRow → ℚ) : ℚ :=
  let ms := rows.filter (fun r => r.2 = c)
  (ms.map (fun r => f r.1)).sum / ms.length

/-- Lines 175-176: the composite health metric of a cluster,
`mean(repay_borrow_ratio_count) - mean(liquidation_ratio) * 2`. -/
def clusterHealthMetric (rows : List (FeatureRow × Fin N_CLUSTERS)) (c : Fin N_CLUSTERS) : ℚ :=
  clusterMean rows c FeatureRow.repay_borrow_ratio_count -
    clusterMean rows c FeatureRow.liquidation_ratio * 2

/-- The series `cluster_health_metric`, indexed by the present clusters. -/
def metricValues (rows : List (FeatureRow × Fin N_CLUSTERS)) : List ℚ :=
  (clustersPresent rows).map (clusterHealthMetric rows)

/-- Pandas `rank(method='dense')` (ascending): the rank of `v` is the
number of distinct values `≤ v`. -/
def denseRank (vals : List ℚ) (v : ℚ) : ℕ :=
  (vals.dedup.filter (fun u => u ≤ v)).length

/-- Line 179: `score_mapping = cluster_health_metric.rank(method='dense').astype(int) - 1`. -/
def scoreMapping (rows : List (FeatureRow × Fin N_CLUSTERS)) (c : Fin N_CLUSTERS) : ℕ :=
  denseRank (metricValues rows) (clusterHealthMetric rows c) - 1

/-- Line 182: `(cluster.map(score_mapping) * (1000 / (N_CLUSTERS - 1))).astype(int)`. -/
def creditScore (rows : List (FeatureRow × Fin N_CLUSTERS)) (c : Fin N_CLUSTERS) : ℤ :=
  truncToZero ((scoreMapping rows c : ℚ) * (1000 / ((N_CLUSTERS : ℚ) - 1)))

/-- The scored table: each row keeps its features and cluster and gains
its `credit_score` (lines 170-182, after the K-Means fit). -/
def generateCreditScores (rows : List (FeatureRow × Fin N_CLUSTERS)) :
    List (FeatureRow × Fin N_CLUSTERS × ℤ) :=
  rows.map (fun r => (r.1, r.2, creditScore rows r.2))

/-- `generate_credit_scores` including its empty-table guard (lines
155-157): the K-Means fit is an external numerical optimizer, passed here
as the function `fitPredict` attaching a cluster label to each row; on an
empty feature table the guard returns the (empty) table unchanged without
consulting it. -/
def generateCreditScoresFull (table : List FeatureRow)
    (fitPredict : List FeatureRow → List (FeatureRow × Fin N_CLUSTERS)) :
    List (FeatureRow × Fin N_CLUSTERS × ℤ) :=
  if table.isEmpty then [] else generateCreditScores (fitPredict table)

/-! ### Helper lemmas about the feature engineer -/

lemma perm_maximum_eq {l l' : List ℤ} (h : l.Perm l') : l.maximum = l'.maximum := by
  cases hl' : l'.maximum with
  | bot =>
    rw [List.maximum_eq_bot] at hl' ⊢
    exact (h.trans (hl' ▸ List.Perm.refl _)).eq_nil
  | coe m =>
    have hm := List.maximum_eq_coe_iff.mp hl'
    exact List.maximum_eq_coe_iff.mpr ⟨h.mem_iff.mpr hm.1, fun a ha => hm.2 a (h.mem_iff.mp ha)⟩

lemma perm_minimum_eq {l l' : List ℤ} (h : l.Perm l') : l.minimum = l'.minimum := by
  cases hl' : l'.minimum with
  | top =>
    rw [List.minimum_eq_top] at hl' ⊢
    exact (h.trans (hl' ▸ List.Perm.refl _)).eq_nil
  | coe m =>
    have hm := List.minimum_eq_coe_iff.mp hl'
    exact List.minimum_eq_coe_iff.mpr ⟨h.mem_iff.mpr hm.1, fun a ha => hm.2 a (h.mem_iff.mp ha)⟩

lemma spanDaysOf_perm {ts ts' : List ℤ} (h : ts.Perm ts') : spanDaysOf ts = spanDaysOf ts' := by
  by_cases he : ts.isEmpty
  · have he' : ts'.isEmpty := by
      simp only [List.isEmpty_iff] at he ⊢
      exact (h.symm.trans (he ▸ List.Perm.refl _)).eq_nil
    simp [spanDaysOf, he, he']
  · have he' : ¬ts'.isEmpty = true := by
      simp only [List.isEmpty_iff] at he ⊢
      intro hh
      exact he (h.trans (hh ▸ List.Perm.refl _)).eq_nil
    simp only [spanDaysOf, he, he', Bool.false_eq_true, if_false]
    rw [h.length_eq, perm_maximum_eq h, perm_minimum_eq h]

lemma activeDaysOf_perm {ps ps' : List ParsedTx} (h : ps.Perm ps') (w : String) :
    activeDaysOf ps w = activeDaysOf ps' w :=
  spanDaysOf_perm ((h.filter _).map _)

lemma engineerFeaturesOf_perm {ps ps' : List ParsedTx} (h : ps.Perm ps') (w : String) :
    engineerFeaturesOf ps w = engineerFeaturesOf ps' w := by
  have hw : (walletTxsOf ps w).Perm (walletTxsOf ps' w) := h.filter _
  have hlen : (walletTxsOf ps w).length = (walletTxsOf ps' w).length := hw.length_eq
  have hnum : ∀ a, numActionOf ps w a = numActionOf ps' w a := fun a =>
    (hw.filter _).length_eq
  have husd : totalUsdOf ps w = totalUsdOf ps' w := (hw.map _).sum_eq
  have hact : activeDaysOf ps w = activeDaysOf ps' w := activeDaysOf_perm h w
  have hnil : (walletTxsOf ps w = []) ↔ (walletTxsOf ps' w = []) := by
    rw [← List.length_eq_zero, ← List.length_eq_zero, hlen]
  unfold engineerFeaturesOf
  by_cases h0 : walletTxsOf ps' w = []
  · rw [if_pos (hnil.mpr h0), if_pos h0]
  · rw [if_neg (fun hh => h0 (hnil.mp hh)), if_neg h0]
    unfold repayBorrowRatioOf liquidationRatioOf avgTimeBetweenTxDaysOf
    rw [hlen, hnum, hnum, hnum, husd, hact]

lemma validTxs_drop {tx : Tx} (hp : parseTx tx = none) (l₁ l₂ : List Tx) :
    validTxs (l₁ ++ tx :: l₂) = validTxs (l₁ ++ l₂) := by
  simp [validTxs, List.filterMap_append, List.filterMap_cons, hp]

lemma toLower_empty : "".toLower = "" := by simp [String.toLower, String.map_eq]

/-! ### Helper lemmas about the cluster scorer -/

lemma mem_clustersPresent {rows : List (FeatureRow × Fin N_CLUSTERS)}
    {r : FeatureRow × Fin N_CLUSTERS} (h : r ∈ rows) : r.2 ∈ clustersPresent rows :=
  List.mem_dedup.mpr (List.mem_map_of_mem Prod.snd h)

lemma metric_mem_metricValues {rows : List (FeatureRow × Fin N_CLUSTERS)} {c : Fin N_CLUSTERS}
    (h : c ∈ clustersPresent rows) : clusterHealthMetric rows c ∈ metricValues rows :=
  List.mem_map_of_mem (clusterHealthMetric rows) h

lemma one_le_denseRank {vals : List ℚ} {v : ℚ} (h : v ∈ vals) : 1 ≤ denseRank vals v := by
  have hv : v ∈ vals.dedup.filter (fun u => u ≤ v) :=
    List.mem_filter.mpr ⟨List.mem_dedup.mpr h, by simp⟩
  exact List.length_pos.mpr (List.ne_nil_of_mem hv)

lemma denseRank_le_dedup_length (vals : List ℚ) (v : ℚ) :
    denseRank vals v ≤ vals.dedup.length :=
  List.length_filter_le _ _

lemma clustersPresent_length_le (rows : List (FeatureRow × Fin N_CLUSTERS)) :
    (clustersPresent rows).length ≤ N_CLUSTERS := by
  have h := (List.nodup_dedup (rows.map Prod.snd)).length_le_card
  simpa [clustersPresent, N_CLUSTERS] using h

lemma metricValues_dedup_length_le (rows : List (FeatureRow × Fin N_CLUSTERS)) :
    (metricValues rows).dedup.length ≤ N_CLUSTERS := by
  have h1 : (metricValues rows).dedup.length ≤ (metricValues rows).length :=
    (List.dedup_sublist _).length_le
  have h2 : (metricValues rows).length = (clustersPresent rows).length := by
    simp [metricValues]
  exact (h1.trans h2.le).trans (clustersPresent_length_le rows)

lemma creditScore_eq_mul (rows : List (FeatureRow × Fin N_CLUSTERS)) (c : Fin N_CLUSTERS) :
    creditScore rows c = 250 * (scoreMapping rows c : ℤ) := by
  have h1 : (scoreMapping rows c : ℚ) * (1000 / ((N_CLUSTERS : ℚ) - 1)) =
      ((250 * (scoreMapping rows c : ℤ) : ℤ) : ℚ) := by
    simp only [N_CLUSTERS]
    push_cast
    ring
  have h2 : (0 : ℚ) ≤ (scoreMapping rows c : ℚ) * (1000 / ((N_CLUSTERS : ℚ) - 1)) := by
    simp only [N_CLUSTERS]
    positivity
  unfold creditScore truncToZero
  rw [if_pos h2, h1]
  exact Int.floor_intCast _

lemma length_filter_eq_one_of_nodup :
    ∀ (l : List ℚ), l.Nodup → ∀ v ∈ l, (l.filter (fun u => u = v)).length = 1 := by
  intro l hl v hv
  induction l with
  | nil => cases hv
  | cons a t ih =>
    rcases List.mem_cons.mp hv with rfl | hvt
    · have hnt : t.filter (fun u => u = v) = [] := by
        apply List.filter_eq_nil_iff.mpr
        intro u hu
        simp only [decide_eq_true_eq]
        intro he
        exact (List.nodup_cons.mp hl).1 (he ▸ hu)
      simp [List.filter_cons, hnt]
    · have hav : ¬(a = v) := by
        intro he
        exact (List.nodup_cons.mp hl).1 (he ▸ hvt)
      have := ih (List.nodup_cons.mp hl).2 hvt
      simp [List.filter_cons, hav, this]

lemma denseRank_eq_one_of_min {vals : List ℚ} {v : ℚ} (hv : v ∈ vals)
    (hmin : ∀ u ∈ vals, v ≤ u) : denseRank vals v = 1 := by
  unfold denseRank
  have hcongr : vals.dedup.filter (fun u => u ≤ v) = vals.dedup.filter (fun u => u = v) := by
    apply List.filter_congr
    intro a ha
    have hva : v ≤ a := hmin a (List.mem_dedup.mp ha)
    by_cases he : a = v
    · simp [he]
    · simp only [decide_eq_decide]
      constructor
      · intro hav
        exact absurd (le_antisymm hav hva) he
      · intro h
        exact absurd h he
  rw [hcongr]
  exact length_filter_eq_one_of_nodup vals.dedup (List.nodup_dedup vals) v (List.mem_dedup.mpr hv)

lemma denseRank_eq_dedup_length_of_max {vals : List ℚ} {v : ℚ}
    (hmax : ∀ u ∈ vals, u ≤ v) : denseRank vals v = vals.dedup.length := by
  unfold denseRank
  rw [List.filter_eq_self.mpr]
  intro a ha
  simpa using hmax a (List.mem_dedup.mp ha)

/-! ### Claim theorems about the cluster scorer -/

/-- C3: every row of the scored table has `credit_score` in
`{0, 250, 500, 750, 1000}` (the values `⌊k * 1000 / (N_CLUSTERS - 1)⌋` for
`0 ≤ k ≤ N_CLUSTERS - 1`), hence within `[0, 1000]`. -/
theorem c3_credit_score_range (rows : List (FeatureRow × Fin N_CLUSTERS))
    (x : FeatureRow × Fin N_CLUSTERS × ℤ) (hx : x ∈ generateCreditScores rows) :
    (x.2.2 = 0 ∨ x.2.2 = 250 ∨ x.2.2 = 500 ∨ x.2.2 = 750 ∨ x.2.2 = 1000)
    ∧ 0 ≤ x.2.2 ∧ x.2.2 ≤ 1000 := by
  obtain ⟨r, hr, rfl⟩ := List.mem_map.mp hx
  have hc : r.2 ∈ clustersPresent rows := mem_clustersPresent hr
  have hv : clusterHealthMetric rows r.2 ∈ metricValues rows := metric_mem_metricValues hc
  have h1 : 1 ≤ denseRank (metricValues rows) (clusterHealthMetric rows r.2) :=
    one_le_denseRank hv
  have h5 : denseRank (metricValues rows) (clusterHealthMetric rows r.2) ≤ N_CLUSTERS :=
    (denseRank_le_dedup_length _ _).trans (metricValues_dedup_length_le rows)
  have hk : scoreMapping rows r.2 ≤ 4 := by
    unfold scoreMapping
    simp only [N_CLUSTERS] at h5
    omega
  simp only [creditScore_eq_mul]
  set k := scoreMapping rows r.2 with hkdef
  interval_cases k <;> simp

/-- C9: any two rows of the scored table carrying the same cluster label
receive the identical `credit_score`. -/
theorem c9_same_cluster_same_score (rows : List (FeatureRow × Fin N_CLUSTERS))
    (x y : FeatureRow × Fin N_CLUSTERS × ℤ)
    (hx : x ∈ generateCreditScores rows) (hy : y ∈ generateCreditScores rows)
    (hc : x.2.1 = y.2.1) : x.2.2 = y.2.2 := by
  obtain ⟨r, hr, rfl⟩ := List.mem_map.mp hx
  obtain ⟨s, hs, rfl⟩ := List.mem_map.mp hy
  simp only at hc ⊢
  rw [hc]

/-- C2 (amended): over any cluster assignment, a present cluster whose
composite health metric is minimal receives `credit_score` 0; each present
cluster receives `250 * (its 0-based dense rank)`, so bands are evenly
spaced; and a present cluster whose metric is maximal receives 1000
provided the present clusters carry `N_CLUSTERS` pairwise-distinct
composite metric values (with ties, dense ranking collapses bands and the
top band falls short of 1000). -/
theorem c2_cluster_rank_to_score (rows : List (FeatureRow × Fin N_CLUSTERS)) :
    (∀ c ∈ clustersPresent rows,
      (∀ c' ∈ clustersPresent rows, clusterHealthMetric rows c ≤ clusterHealthMetric rows c') →
      creditScore rows c = 0)
    ∧ ((metricValues rows).dedup.length = N_CLUSTERS →
      ∀ c ∈ clustersPresent rows,
      (∀ c' ∈ clustersPresent rows, clusterHealthMetric rows c' ≤ clusterHealthMetric rows c) →
      creditScore rows c = 1000)
    ∧ (∀ c ∈ clustersPresent rows,
      creditScore rows c =
        250 * ((denseRank (metricValues rows) (clusterHealthMetric rows c) : ℤ) - 1)) := by
  refine ⟨?_, ?_, ?_⟩
  · intro c hc hmin
    have hv : clusterHealthMetric rows c ∈ metricValues rows := metric_mem_metricValues hc
    have hminv : ∀ u ∈ metricValues rows, clusterHealthMetric rows c ≤ u := by
      intro u hu
      obtain ⟨c', hc', rfl⟩ := List.mem_map.mp hu
      exact hmin c' hc'
    have hr : denseRank (metricValues rows) (clusterHealthMetric rows c) = 1 :=
      denseRank_eq_one_of_min hv hminv
    rw [creditScore_eq_mul]
    simp [scoreMapping, hr]
  · intro hd c hc hmax
    have hmaxv : ∀ u ∈ metricValues rows, u ≤ clusterHealthMetric rows c := by
      intro u hu
      obtain ⟨c', hc', rfl⟩ := List.mem_map.mp hu
      exact hmax c' hc'
    have hr : denseRank (metricValues rows) (clusterHealthMetric rows c) = N_CLUSTERS :=
      (denseRank_eq_dedup_length_of_max hmaxv).trans hd
    rw [creditScore_eq_mul]
    simp [scoreMapping, hr, N_CLUSTERS]
  · intro c hc
    have hv : clusterHealthMetric rows c ∈ metricValues rows := metric_mem_metricValues hc
    have h1 : 1 ≤ denseRank (metricValues rows) (clusterHealthMetric rows c) :=
      one_le_denseRank hv
    rw [creditScore_eq_mul]
    unfold scoreMapping
    omega

/-! ### Claim theorems about the feature engineer -/

/-- C4: a wallet in the output with zero valid borrow records has
`repay_borrow_ratio_count` exactly 1.0; with a positive borrow count, the
ratio is `repay_count / borrow_count`. -/
theorem c4_repay_borrow_ratio (l : List Tx) (w : String) (f : FeatureRow)
    (hf : engineerFeatures l w = some f) :
    (numActionOf (validTxs l) w "borrow" = 0 → f.repay_borrow_ratio_count = 1)
    ∧ (0 < numActionOf (validTxs l) w "borrow" →
      f.repay_borrow_ratio_count =
        (numActionOf (validTxs l) w "repay" : ℚ) / (numActionOf (validTxs l) w "borrow" : ℚ)) := by
  unfold engineerFeatures engineerFeaturesOf at hf
  split at hf
  · cases hf
  · injection hf with hf
    subst hf
    constructor
    · intro hb
      simp [repayBorrowRatioOf, hb]
    · intro hb
      simp only [repayBorrowRatioOf]
      rw [if_pos hb]

/-- C5: the feature engineer is order-independent — any permutation of the
input record list yields the same feature row for every wallet. -/
theorem c5_order_independence (l l' : List Tx) (h : l.Perm l') (w : String) :
    engineerFeatures l w = engineerFeatures l' w :=
  engineerFeaturesOf_perm (h.filterMap parseTx) w

lemma parseTx_eq_none_of_missing (tx : Tx)
    (hbad : tx.timestamp = none ∨ tx.userWallet = none ∨ tx.action = none ∨
      tx.actionData = none ∨ ∃ ad, tx.actionData = some ad ∧
        (ad.amount = none ∨ ad.assetPriceUSD = some none)) :
    parseTx tx = none := by
  obtain ⟨uw, ac, ts, ad⟩ := tx
  rcases hbad with h | h | h | h | ⟨a, ha, h2⟩
  · cases h
    cases uw <;> rfl
  · cases h
    cases ts <;> rfl
  · cases h
    cases uw <;> cases ts <;> simp [parseTx, toLower_empty]
  · cases h
    cases uw <;> cases ts <;> simp [parseTx]
  · simp only at ha
    cases ha
    obtain ⟨am, pr⟩ := a
    rcases h2 with h2 | h2 <;> simp only at h2 <;> cases h2 <;>
      cases uw <;> cases ts <;> simp [parseTx] <;> (intros; cases am <;> rfl)

/-- C6: a record missing its timestamp, wallet, action, or `actionData`
fields, or whose amount/price is unparseable, contributes to no wallet's
feature row: it is dropped and the rest of the batch is unaffected (the
embedding is a total function, so no error surfaces). -/
theorem c6_invalid_record_dropped (tx : Tx)
    (hbad : tx.timestamp = none ∨ tx.userWallet = none ∨ tx.action = none ∨
      tx.actionData = none ∨ ∃ ad, tx.actionData = some ad ∧
        (ad.amount = none ∨ ad.assetPriceUSD = some none))
    (l₁ l₂ : List Tx) (w : String) :
    engineerFeatures (l₁ ++ tx :: l₂) w = engineerFeatures (l₁ ++ l₂) w := by
  unfold engineerFeatures
  rw [validTxs_drop (parseTx_eq_none_of_missing tx hbad)]

lemma parseTx_eq_none_of_falsy (tx : Tx)
    (hz : tx.timestamp = some 0 ∨ tx.userWallet = some "" ∨ tx.action = some "") :
    parseTx tx = none := by
  obtain ⟨uw, ac, ts, ad⟩ := tx
  rcases hz with h | h | h
  · cases h
    cases uw <;> simp [parseTx]
  · cases h
    cases ts <;> simp [parseTx]
  · cases h
    cases uw <;> cases ts <;> simp [parseTx, toLower_empty]

/-- C10: a record whose `timestamp` field is present but equal to the
integer 0 is dropped by the truthiness test `not all([wallet, action,
timestamp])`, contributing to no wallet's statistics; an empty-string
wallet or action is dropped the same way. -/
theorem c10_truthiness_drop (tx : Tx)
    (hz : tx.timestamp = some 0 ∨ tx.userWallet = some "" ∨ tx.action = some "") :
    parseTx tx = none ∧
      ∀ l₁ l₂ w, engineerFeatures (l₁ ++ tx :: l₂) w = engineerFeatures (l₁ ++ l₂) w := by
  refine ⟨parseTx_eq_none_of_falsy tx hz, fun l₁ l₂ w => ?_⟩
  unfold engineerFeatures
  rw [validTxs_drop (parseTx_eq_none_of_falsy tx hz)]

/-- C7: on an empty record list the feature engineer returns the empty
table, and the cluster scorer returns an empty table unchanged without
consulting the clustering step (the result is `[]` for every possible
clustering function). -/
theorem c7_empty_input :
    (∀ w, engineerFeatures [] w = none)
    ∧ ∀ fp, generateCreditScoresFull [] fp = [] := by
  constructor
  · intro w
    simp [engineerFeatures, validTxs, engineerFeaturesOf, walletTxsOf]
  · intro fp
    simp [generateCreditScoresFull]

lemma untop'_min_le_unbot'_max (ts : List ℤ) (h : ts ≠ []) :
    ts.minimum.untop' 0 ≤ ts.maximum.unbot' 0 := by
  obtain ⟨a, ha⟩ := List.exists_mem_of_ne_nil ts h
  cases hM : ts.maximum with
  | bot => exact absurd (List.maximum_eq_bot.mp hM) h
  | coe m =>
    cases hm : ts.minimum with
    | top => exact absurd (List.minimum_eq_top.mp hm) h
    | coe mn =>
      have h1 : mn ≤ a := by
        have := List.minimum_le_of_mem' ha
        rw [hm] at this
        exact_mod_cast this
      have h2 : a ≤ m := by
        have := List.le_maximum_of_mem' ha
        rw [hM] at this
        exact_mod_cast this
      simp only [WithTop.untop'_coe, WithBot.unbot'_coe]
      omega

lemma spanDaysOf_nonneg (ts : List ℤ) : 0 ≤ spanDaysOf ts := by
  by_cases he : ts.isEmpty
  · simp [spanDaysOf, he]
  · have hne : ts ≠ [] := by
      simpa [List.isEmpty_iff] using he
    simp only [spanDaysOf, he, Bool.false_eq_true, if_false]
    split
    · have := untop'_min_le_unbot'_max ts hne
      apply div_nonneg _ (by norm_num)
      exact_mod_cast sub_nonneg.mpr this
    · exact le_refl 0

/-- C8 (amended): for every input list and every output row, the six
features other than `total_usd_all_actions` are unconditionally
non-negative, and `total_usd_all_actions` is non-negative under the
hypothesis that every valid record's normalized USD value is non-negative
(the code does not enforce this: a record whose amount or price parses to
a negative number makes the sum negative).  In the exact-rational model no
infinity or NaN can arise, so the model-input replacement of non-finite
values by 0 (lines 163-164) is the identity. -/
theorem c8_nonneg_features (l : List Tx) (w : String) (f : FeatureRow)
    (hf : engineerFeatures l w = some f) :
    0 ≤ f.total_tx ∧ 0 ≤ f.repay_borrow_ratio_count
    ∧ 0 ≤ f.num_liquidations ∧ 0 ≤ f.liquidation_ratio ∧ 0 ≤ f.active_days
    ∧ 0 ≤ f.avg_time_between_tx_days
    ∧ ((∀ p ∈ validTxs l, 0 ≤ p.usd) → 0 ≤ f.total_usd_all_actions) := by
  unfold engineerFeatures engineerFeaturesOf at hf
  split at hf
  · cases hf
  · injection hf with hf
    subst hf
    refine ⟨by positivity, ?_, by positivity, ?_, ?_, ?_, ?_⟩
    · simp only [repayBorrowRatioOf]
      split
      · positivity
      · norm_num
    · simp only [liquidationRatioOf]
      split
      · positivity
      · norm_num
    · exact spanDaysOf_nonneg _
    · simp only [avgTimeBetweenTxDaysOf]
      split
      · exact div_nonneg (spanDaysOf_nonneg _) (by positivity)
      · norm_num
    · intro hpos
      apply List.sum_nonneg
      intro x hx
      obtain ⟨p, hp, rfl⟩ := List.mem_map.mp hx
      exact hpos p (List.mem_of_mem_filter hp)

/-! ### Concrete inputs for the scenario, witnesses and counterexamples -/

lemma lc_borrow : "borrow".toLower = "borrow" := by simp [String.toLower, String.map_eq]

lemma lc_repay : "repay".toLower = "repay" := by simp [String.toLower, String.map_eq]

lemma lc_deposit : "deposit".toLower = "deposit" := by simp [String.toLower, String.map_eq]

/-- Scenario record: wallet `W1` deposits $100 at timestamp 0 (amount
`100000000` at 6 token decimals, price defaulting to 1.0). -/
def depositTx : Tx :=
  { userWallet := some "W1", action := some "deposit", timestamp := some 0,
    actionData := some { amount := some 100000000, assetPriceUSD := none } }

/-- Scenario record: wallet `W1` borrows $50 at timestamp 1000. -/
def borrowTx : Tx :=
  { userWallet := some "W1", action := some "borrow", timestamp := some 1000,
    actionData := some { amount := some 50000000, assetPriceUSD := none } }

/-- Scenario record: wallet `W1` repays $50 at timestamp 2000. -/
def repayTx : Tx :=
  { userWallet := some "W1", action := some "repay", timestamp := some 2000,
    actionData := some { amount := some 50000000, assetPriceUSD := none } }

/-- The three-record scenario of the specification. -/
def scenarioC1 : List Tx := [depositTx, borrowTx, repayTx]

lemma validTxs_scenarioC1 : validTxs scenarioC1 =
    [⟨"W1", "borrow", 1000, 50⟩, ⟨"W1", "repay", 2000, 50⟩] := by
  norm_num +decide [validTxs, scenarioC1, parseTx, depositTx, borrowTx, repayTx, lc_borrow,
    lc_repay, lc_deposit, List.filterMap]

/-- C1: on the three-record scenario the code produces `total_tx = 2` and
`active_days = 1000/86400` for `W1`, because the deposit record with
timestamp 0 is dropped by the truthiness validation — not `total_tx = 3`
and `active_days = 2000/86400` as the specification's scenario states. -/
theorem c1_scenario_code_behavior :
    engineerFeatures scenarioC1 "W1" = some
      { wallet := "W1", total_tx := 2, total_usd_all_actions := 100,
        repay_borrow_ratio_count := 1, num_liquidations := 0, liquidation_ratio := 0,
        active_days := 1000 / 86400, avg_time_between_tx_days := 1000 / 86400 / 2 }
    ∧ (2 : ℚ) ≠ 3 ∧ ((1000 : ℚ) / 86400) ≠ 2000 / 86400 := by
  refine ⟨?_, by norm_num, by norm_num⟩
  have hts : walletTimestampsOf [⟨"W1", "borrow", 1000, 50⟩, ⟨"W1", "repay", 2000, 50⟩] "W1"
      = [1000, 2000] := by
    norm_num +decide [walletTimestampsOf, walletTxsOf, List.filter]
  have hmax : (([1000, 2000] : List ℤ).maximum.unbot' 0) = 2000 := by decide
  have hmin : (([1000, 2000] : List ℤ).minimum.untop' 0) = 1000 := by decide
  have hact : activeDaysOf [⟨"W1", "borrow", 1000, 50⟩, ⟨"W1", "repay", 2000, 50⟩] "W1"
      = 1000 / 86400 := by
    simp [activeDaysOf, spanDaysOf, hts, hmax, hmin]
  norm_num +decide [engineerFeatures, validTxs_scenarioC1, engineerFeaturesOf, walletTxsOf,
    List.filter, numActionOf, totalUsdOf, repayBorrowRatioOf, liquidationRatioOf, hact,
    avgTimeBetweenTxDaysOf]

lemma validTxs_borrowTx : validTxs [borrowTx] = [⟨"W1", "borrow", 1000, 50⟩] := by
  norm_num +decide [validTxs, parseTx, borrowTx, lc_borrow, List.filterMap]

/-- The feature row the code computes for `W1` from the single record
`borrowTx`. -/
def rowSingleBorrow : FeatureRow :=
  { wallet := "W1", total_tx := 1, total_usd_all_actions := 50,
    repay_borrow_ratio_count := 0, num_liquidations := 0, liquidation_ratio := 0,
    active_days := 0, avg_time_between_tx_days := 0 }

lemma ef_single_borrow : engineerFeatures [borrowTx] "W1" = some rowSingleBorrow := by
  norm_num +decide [engineerFeatures, validTxs_borrowTx, engineerFeaturesOf, walletTxsOf,
    List.filter, numActionOf, totalUsdOf, walletTimestampsOf, repayBorrowRatioOf,
    liquidationRatioOf, activeDaysOf, spanDaysOf, avgTimeBetweenTxDaysOf, rowSingleBorrow]

/-- Witness for C4 at the single-borrow input. -/
theorem c4_repay_borrow_ratio_witness :
    (numActionOf (validTxs [borrowTx]) "W1" "borrow" = 0 →
      rowSingleBorrow.repay_borrow_ratio_count = 1)
    ∧ (0 < numActionOf (validTxs [borrowTx]) "W1" "borrow" →
      rowSingleBorrow.repay_borrow_ratio_count =
        (numActionOf (validTxs [borrowTx]) "W1" "repay" : ℚ) /
          (numActionOf (validTxs [borrowTx]) "W1" "borrow" : ℚ)) :=
  c4_repay_borrow_ratio [borrowTx] "W1" rowSingleBorrow ef_single_borrow

/-- Witness for C5: swapping two records leaves `W1`'s feature row
unchanged. -/
theorem c5_order_independence_witness :
    engineerFeatures [borrowTx, repayTx] "W1" = engineerFeatures [repayTx, borrowTx] "W1" :=
  c5_order_independence [borrowTx, repayTx] [repayTx, borrowTx]
    (List.Perm.swap repayTx borrowTx []) "W1"

/-- A record with no `timestamp` key. -/
def noTimestampTx : Tx :=
  { userWallet := some "W1", action := some "deposit", timestamp := none,
    actionData := some { amount := some 1000000, assetPriceUSD := none } }

/-- Witness for C6: inserting a timestamp-less record changes nothing. -/
theorem c6_invalid_record_dropped_witness :
    engineerFeatures ([borrowTx] ++ noTimestampTx :: []) "W1" =
      engineerFeatures ([borrowTx] ++ []) "W1" :=
  c6_invalid_record_dropped noTimestampTx (Or.inl rfl) [borrowTx] [] "W1"

/-- Witness for C10: the deposit record with timestamp 0 parses to `none`
and contributes nothing. -/
theorem c10_truthiness_drop_witness :
    parseTx depositTx = none ∧
      engineerFeatures ([borrowTx] ++ depositTx :: []) "W1" =
        engineerFeatures ([borrowTx] ++ []) "W1" :=
  ⟨(c10_truthiness_drop depositTx (Or.inl rfl)).1,
    (c10_truthiness_drop depositTx (Or.inl rfl)).2 [borrowTx] [] "W1"⟩

/-- Witness for C8 at the single-borrow input, including the discharged
USD-value side condition for the conditional conjunct. -/
theorem c8_nonneg_features_witness :
    (0 ≤ rowSingleBorrow.total_tx ∧ 0 ≤ rowSingleBorrow.repay_borrow_ratio_count
      ∧ 0 ≤ rowSingleBorrow.num_liquidations ∧ 0 ≤ rowSingleBorrow.liquidation_ratio
      ∧ 0 ≤ rowSingleBorrow.active_days ∧ 0 ≤ rowSingleBorrow.avg_time_between_tx_days
      ∧ ((∀ p ∈ validTxs [borrowTx], 0 ≤ p.usd) → 0 ≤ rowSingleBorrow.total_usd_all_actions))
    ∧ 0 ≤ rowSingleBorrow.total_usd_all_actions :=
  have h := c8_nonneg_features [borrowTx] "W1" rowSingleBorrow ef_single_borrow
  ⟨h, h.2.2.2.2.2.2
    (by
      intro p hp
      rw [validTxs_borrowTx] at hp
      simp only [List.mem_singleton] at hp
      subst hp
      norm_num)⟩

/-- A record whose amount parses to a negative number. -/
def negAmountTx : Tx :=
  { userWallet := some "W2", action := some "deposit", timestamp := some 5,
    actionData := some { amount := some (-100000000), assetPriceUSD := none } }

/-- Counterexample to C8 as stated: a record with a negative parsed
amount gives wallet `W2` the negative `total_usd_all_actions = -100`. -/
theorem c8_negative_usd_counterexample :
    (engineerFeatures [negAmountTx] "W2").map FeatureRow.total_usd_all_actions = some (-100)
    ∧ ¬(0 : ℚ) ≤ -100 := by
  have hv : validTxs [negAmountTx] = [⟨"W2", "deposit", 5, -100⟩] := by
    norm_num +decide [validTxs, parseTx, negAmountTx, lc_deposit, List.filterMap]
  constructor
  · norm_num +decide [engineerFeatures, hv, engineerFeaturesOf, walletTxsOf, List.filter,
      totalUsdOf]
  · norm_num

def clu0 : Fin N_CLUSTERS := ⟨0, by decide⟩

def clu1 : Fin N_CLUSTERS := ⟨1, by decide⟩

def clu2 : Fin N_CLUSTERS := ⟨2, by decide⟩

def clu3 : Fin N_CLUSTERS := ⟨3, by decide⟩

def clu4 : Fin N_CLUSTERS := ⟨4, by decide⟩

/-- A feature row with the given wallet name, repay ratio and liquidation
ratio (the two fields the composite health metric reads). -/
def mkRow (nm : String) (rr lr : ℚ) : FeatureRow :=
  { wallet := nm, total_tx := 1, total_usd_all_actions := 0,
    repay_borrow_ratio_count := rr, num_liquidations := 0, liquidation_ratio := lr,
    active_days := 0, avg_time_between_tx_days := 0 }

/-- Five singleton clusters with pairwise-distinct composite metrics
0, 1, 2, 3, 4. -/
def spreadRows : List (FeatureRow × Fin N_CLUSTERS) :=
  [(mkRow "a" 0 0, clu0), (mkRow "b" 1 0, clu1), (mkRow "c" 2 0, clu2),
   (mkRow "d" 3 0, clu3), (mkRow "e" 4 0, clu4)]

/-- Five singleton clusters whose composite metrics all tie at 1. -/
def tiedRows : List (FeatureRow × Fin N_CLUSTERS) :=
  [(mkRow "a" 1 0, clu0), (mkRow "b" 1 0, clu1), (mkRow "c" 1 0, clu2),
   (mkRow "d" 1 0, clu3), (mkRow "e" 1 0, clu4)]

/-- Witness for C2 at `spreadRows`: the minimal-metric cluster scores 0
and (all five metrics being distinct) the maximal-metric cluster scores
1000. -/
theorem c2_cluster_rank_to_score_witness :
    creditScore spreadRows clu0 = 0 ∧ creditScore spreadRows clu4 = 1000 := by
  have hmem0 : clu0 ∈ clustersPresent spreadRows := by decide
  have hmem4 : clu4 ∈ clustersPresent spreadRows := by decide
  have hmin : ∀ c' ∈ clustersPresent spreadRows,
      clusterHealthMetric spreadRows clu0 ≤ clusterHealthMetric spreadRows c' := by
    intro c' hc'
    fin_cases hc' <;>
      norm_num +decide [clusterHealthMetric, clusterMean, spreadRows, mkRow, clu0, clu1, clu2,
        clu3, clu4, List.filter]
  have hmax : ∀ c' ∈ clustersPresent spreadRows,
      clusterHealthMetric spreadRows c' ≤ clusterHealthMetric spreadRows clu4 := by
    intro c' hc'
    fin_cases hc' <;>
      norm_num +decide [clusterHealthMetric, clusterMean, spreadRows, mkRow, clu0, clu1, clu2,
        clu3, clu4, List.filter]
  have hdist : (metricValues spreadRows).dedup.length = N_CLUSTERS := by
    have hm : metricValues spreadRows = [0, 1, 2, 3, 4] := by
      norm_num +decide [metricValues, clustersPresent, spreadRows, clusterHealthMetric,
        clusterMean, mkRow, clu0, clu1, clu2, clu3, clu4, List.filter, List.dedup]
    rw [hm]
    norm_num [List.dedup, List.insert, N_CLUSTERS]
  exact ⟨(c2_cluster_rank_to_score spreadRows).1 clu0 hmem0 hmin,
    (c2_cluster_rank_to_score spreadRows).2.1 hdist clu4 hmem4 hmax⟩

/-- Counterexample to C2 as stated: in `tiedRows` the feature table is
non-empty and every present cluster ties at composite metric 1, so the
maximal-metric cluster exists but receives `credit_score` 0, not 1000
(dense ranking collapses all bands to rank 1). -/
theorem c2_tied_clusters_counterexample :
    metricValues tiedRows = [1, 1, 1, 1, 1]
    ∧ creditScore tiedRows clu0 = 0 ∧ creditScore tiedRows clu1 = 0
    ∧ creditScore tiedRows clu2 = 0 ∧ creditScore tiedRows clu3 = 0
    ∧ creditScore tiedRows clu4 = 0 := by
  have hm : metricValues tiedRows = [1, 1, 1, 1, 1] := by
    norm_num +decide [metricValues, clustersPresent, tiedRows, clusterHealthMetric,
      clusterMean, mkRow, clu0, clu1, clu2, clu3, clu4, List.filter, List.dedup]
  have hdr : denseRank [1, 1, 1, 1, 1] 1 = 1 := by
    norm_num [denseRank, List.dedup, List.insert, List.filter]
  have hsc : ∀ c : Fin N_CLUSTERS, clusterHealthMetric tiedRows c = 1 →
      creditScore tiedRows c = 0 := by
    intro c hc
    rw [creditScore_eq_mul]
    simp [scoreMapping, hm, hc, hdr]
  refine ⟨hm, hsc clu0 ?_, hsc clu1 ?_, hsc clu2 ?_, hsc clu3 ?_, hsc clu4 ?_⟩ <;>
    norm_num +decide [clusterHealthMetric, clusterMean, tiedRows, mkRow, clu0, clu1, clu2,
      clu3, clu4, List.filter]

/-- Witness for C3: a concrete output row of the scorer on `spreadRows`. -/
theorem c3_credit_score_range_witness :
    ((mkRow "a" 0 0, clu0, creditScore spreadRows clu0).2.2 = 0
      ∨ (mkRow "a" 0 0, clu0, creditScore spreadRows clu0).2.2 = 250
      ∨ (mkRow "a" 0 0, clu0, creditScore spreadRows clu0).2.2 = 500
      ∨ (mkRow "a" 0 0, clu0, creditScore spreadRows clu0).2.2 = 750
      ∨ (mkRow "a" 0 0, clu0, creditScore spreadRows clu0).2.2 = 1000)
    ∧ 0 ≤ (mkRow "a" 0 0, clu0, creditScore spreadRows clu0).2.2
    ∧ (mkRow "a" 0 0, clu0, creditScore spreadRows clu0).2.2 ≤ 1000 :=
  c3_credit_score_range spreadRows (mkRow "a" 0 0, clu0, creditScore spreadRows clu0)
    (List.mem_map_of_mem (fun r => (r.1, r.2, creditScore spreadRows r.2))
      (show (mkRow "a" 0 0, clu0) ∈ spreadRows by decide))

/-- Two wallets sharing cluster `clu2`. -/
def pairRows : List (FeatureRow × Fin N_CLUSTERS) :=
  [(mkRow "p" 1 0, clu2), (mkRow "q" 0 1, clu2)]

/-- Witness for C9: the two rows of `pairRows` share a cluster and hence a
score. -/
theorem c9_same_cluster_same_score_witness :
    (mkRow "p" 1 0, clu2, creditScore pairRows clu2).2.2 =
      (mkRow "q" 0 1, clu2, creditScore pairRows clu2).2.2 :=
  c9_same_cluster_same_score pairRows
    (mkRow "p" 1 0, clu2, creditScore pairRows clu2)
    (mkRow "q" 0 1, clu2, creditScore pairRows clu2)
    (List.mem_map_of_mem (fun r => (r.1, r.2, creditScore pairRows r.2))
      (show (mkRow "p" 1 0, clu2) ∈ pairRows by decide))
    (List.mem_map_of_mem (fun r => (r.1, r.2, creditScore pairRows r.2))
      (show (mkRow "q" 0 1, clu2) ∈ pairRows by decide)) rfl
